import Mathlib

/-!
Shallow embedding of `gkwa/ivyprince` (`src/main.go`).  The source file holds
two variants of the program: a first version (printing only, filename taken
from the fourth field) and a second version (regex timestamp extraction,
shell-script generation, structured dump).  Both are embedded below.

Machine integers are modelled as `Int`/`Nat` with explicit bounds where Go
overflow or conversion semantics matter.  Go `time.Time` values produced by
`time.Parse` (always UTC here) are modelled by their broken-down fields plus
nanoseconds; comparison (`Before`) goes through the absolute Unix instant.
Failing operations return `Option`/`Except`; a Go runtime panic from an
out-of-range slice index is a distinguished `LineOutcome.crash` outcome.
-/

/-- Broken-down UTC time as produced by Go `time.Parse` on the layouts used
by the program ("2006-01-02 15:04:05" and "20060102_150405"): year, month,
day, hour, minute, second, plus nanoseconds from an optional fractional
second in the input. -/
structure GoTime where
  year : Nat
  month : Nat
  day : Nat
  hour : Nat
  minute : Nat
  second : Nat
  nsec : Nat
deriving DecidableEq

/-- Days since 1970-01-01 of a civil date (standard civil-calendar
linearisation, floor division).  Mirrors the absolute-instant view that Go
`time.Time` keeps internally. -/
def daysFromCivil (y m d : Int) : Int :=
  let y2 := if m ≤ 2 then y - 1 else y
  let era := Int.fdiv y2 400
  let yoe := y2 - era * 400
  let mp := if 2 < m then m - 3 else m + 9
  let doy := Int.fdiv (153 * mp + 2) 5 + d - 1
  let doe := yoe * 365 + Int.fdiv yoe 4 - Int.fdiv yoe 100 + doy
  era * 146097 + doe - 719468

/-- Unix seconds of a `GoTime` (UTC). -/
def GoTime.unixSec (t : GoTime) : Int :=
  86400 * daysFromCivil (t.year : Int) (t.month : Int) (t.day : Int) +
    3600 * (t.hour : Int) + 60 * (t.minute : Int) + (t.second : Int)

/-- Unix nanoseconds of a `GoTime` (UTC). -/
def GoTime.unixNano (t : GoTime) : Int :=
  t.unixSec * 1000000000 + (t.nsec : Int)

/-- Go `time.Time.Before`: strict comparison of the absolute instants. -/
def GoTime.before (a b : GoTime) : Bool :=
  decide (a.unixNano < b.unixNano)

/-- The record type `FileStruct` of `src/main.go` (identical in both
variants). -/
structure FileStruct where
  S3ModificationTime : GoTime
  FileSize : Int
  Filename : String
  FileTimestamp : GoTime
deriving DecidableEq

/-- Numeric value of a decimal digit character. -/
def digitVal (c : Char) : Nat := c.toNat - '0'.toNat

/-- Go `getnum(s, true)` on a 2-digit zero-padded layout element: exactly two
decimal digits. -/
def parseFixed2 : List Char → Option (Nat × List Char)
  | a :: b :: rest =>
    if a.isDigit && b.isDigit then some (digitVal a * 10 + digitVal b, rest) else none
  | _ => none

/-- Go `getnum(s, false)` as used for the hour element "15": one digit, or
two if the second character is also a digit. -/
def parseHourNum : List Char → Option (Nat × List Char)
  | a :: b :: rest =>
    if a.isDigit then
      if b.isDigit then some (digitVal a * 10 + digitVal b, rest)
      else some (digitVal a, b :: rest)
    else none
  | [a] => if a.isDigit then some (digitVal a, []) else none
  | [] => none

/-- Go year parsing for layout element "2006": exactly four decimal digits. -/
def parseYear4 : List Char → Option (Nat × List Char)
  | a :: b :: c :: d :: rest =>
    if a.isDigit && b.isDigit && c.isDigit && d.isDigit then
      some (digitVal a * 1000 + digitVal b * 100 + digitVal c * 10 + digitVal d, rest)
    else none
  | _ => none

/-- Consume one literal layout character. -/
def expectChar (c : Char) : List Char → Option (List Char)
  | a :: rest => if a = c then some rest else none
  | [] => none

/-- Go `time.Parse` special case after the seconds element: an unannounced
fractional second ('.' or ',' followed by digits) is consumed; its first nine
digits become nanoseconds (fewer digits are scaled up). -/
def parseFrac : List Char → Nat × List Char
  | a :: b :: rest =>
    if (a = '.' || a = ',') && b.isDigit then
      let digits := (b :: rest).takeWhile Char.isDigit
      let rest2 := (b :: rest).dropWhile Char.isDigit
      let used := digits.take 9
      (used.foldl (fun acc c => acc * 10 + digitVal c) 0 * 10 ^ (9 - used.length), rest2)
    else (0, a :: b :: rest)
  | l => (0, l)

/-- Leap year as in Go `time.isLeap`. -/
def isLeap (y : Nat) : Bool := y % 4 = 0 && (y % 100 ≠ 0 || y % 400 = 0)

/-- Days in a month as in Go `time.daysIn`. -/
def daysIn (m y : Nat) : Nat :=
  if m = 2 then (if isLeap y then 29 else 28)
  else if m = 4 || m = 6 || m = 9 || m = 11 then 30
  else 31

/-- Bind on `Option`, kept out of the code generator's inliner (the inlined
chains otherwise blow up compilation). -/
@[noinline] def obind {α β : Type} (x : Option α) (f : α → Option β) : Option β :=
  match x with
  | none => none
  | some a => f a

/-- Shared validation of the broken-down fields, as performed by Go
`time.Parse` after the layout walk: trailing text apart from a fractional
second is an error, and month, day, hour, minute and second must be in
range. -/
def validateGoTime (y mo d h mi sec : Nat) (ns : Nat) (trailing : List Char) : Option GoTime :=
  if trailing.isEmpty ∧ h < 24 ∧ mi < 60 ∧ sec < 60 ∧ 1 ≤ mo ∧ mo ≤ 12 ∧
      1 ≤ d ∧ d ≤ daysIn mo y then
    some ⟨y, mo, d, h, mi, sec, ns⟩
  else none

/-- Go `time.Parse("2006-01-02 15:04:05", dateField ++ " " ++ timeField)` as
called on the first two whitespace-separated fields of an input line (the
program joins them with `fmt.Sprintf("%s %s", ...)`).  Returns `none` exactly
when Go returns a parse error: wrong shape, trailing text, or an
out-of-range month/day/hour/minute/second. -/
def goTimeParse (dateField timeField : String) : Option GoTime :=
  obind (parseYear4 (dateField ++ " " ++ timeField).data) fun p1 =>
  obind (expectChar '-' p1.2) fun s2 =>
  obind (parseFixed2 s2) fun p2 =>
  obind (expectChar '-' p2.2) fun s4 =>
  obind (parseFixed2 s4) fun p3 =>
  obind (expectChar ' ' p3.2) fun s6 =>
  obind (parseHourNum s6) fun p4 =>
  obind (expectChar ':' p4.2) fun s8 =>
  obind (parseFixed2 s8) fun p5 =>
  obind (expectChar ':' p5.2) fun s10 =>
  obind (parseFixed2 s10) fun p6 =>
  let fr := parseFrac p6.2
  validateGoTime p1.1 p2.1 p3.1 p4.1 p5.1 p6.1 fr.1 fr.2

/-- Go `time.Parse("20060102_150405", s)` on the regex match extracted from a
filename. -/
def goTimeParseCompact (cs : List Char) : Option GoTime :=
  obind (parseYear4 cs) fun p1 =>
  obind (parseFixed2 p1.2) fun p2 =>
  obind (parseFixed2 p2.2) fun p3 =>
  obind (expectChar '_' p3.2) fun s4 =>
  obind (parseHourNum s4) fun p4 =>
  obind (parseFixed2 p4.2) fun p5 =>
  obind (parseFixed2 p5.2) fun p6 =>
  let fr := parseFrac p6.2
  validateGoTime p1.1 p2.1 p3.1 p4.1 p5.1 p6.1 fr.1 fr.2

/-- Go `strconv.ParseInt(s, 10, 64)`: optional sign, one or more decimal
digits, value within the `int64` range; anything else is an error. -/
def goParseInt (s : String) : Option Int :=
  let cs := s.data
  let signed : Bool × List Char :=
    match cs with
    | '+' :: rest => (false, rest)
    | '-' :: rest => (true, rest)
    | _ => (false, cs)
  let neg := signed.1
  let ds := signed.2
  if ds.isEmpty then none
  else if ds.all Char.isDigit then
    let n : Nat := ds.foldl (fun acc c => acc * 10 + digitVal c) 0
    let v : Int := if neg then -(n : Int) else (n : Int)
    if -9223372036854775808 ≤ v ∧ v ≤ 9223372036854775807 then some v else none
  else none

/-- Go `unicode.IsSpace`: the white-space runes recognised by
`strings.Fields`. -/
def goIsSpace (c : Char) : Bool :=
  c = ' ' || c = '\t' || c = '\n' || c = '\x0b' || c = '\x0c' || c = '\r' ||
  c = '\x85' || c = '\xa0' || c = ' ' || (' ' ≤ c && c ≤ ' ') ||
  c = ' ' || c = ' ' || c = ' ' || c = ' ' || c = '　'

/-- Accumulator loop behind `goFields`. -/
def goFieldsAux : List Char → List Char → List String
  | [], [] => []
  | [], acc => [String.mk acc.reverse]
  | c :: rest, acc =>
    if goIsSpace c then
      match acc with
      | [] => goFieldsAux rest []
      | _ => String.mk acc.reverse :: goFieldsAux rest []
    else goFieldsAux rest (c :: acc)

/-- Go `strings.Fields`: split around runs of white space, dropping empty
fields. -/
def goFields (s : String) : List String := goFieldsAux s.data []

/-- The fixed-shape regex `\d{8}_\d{6}` tried at the head of the character
list: eight digits, an underscore, six digits. -/
def tsPatternAt (cs : List Char) : Option (List Char) :=
  match cs with
  | d1 :: d2 :: d3 :: d4 :: d5 :: d6 :: d7 :: d8 :: u :: e1 :: e2 :: e3 :: e4 :: e5 :: e6 :: _ =>
    if [d1, d2, d3, d4, d5, d6, d7, d8].all Char.isDigit && u = '_' &&
        [e1, e2, e3, e4, e5, e6].all Char.isDigit then
      some [d1, d2, d3, d4, d5, d6, d7, d8, u, e1, e2, e3, e4, e5, e6]
    else none
  | _ => none

/-- Go `regexp.FindStringSubmatch` for the pattern `(\d{8}_\d{6})`: the
leftmost match (the pattern has a fixed length, so leftmost-first and
leftmost-longest coincide). -/
def findTsMatch : List Char → Option (List Char)
  | [] => none
  | c :: rest =>
    match tsPatternAt (c :: rest) with
    | some m => some m
    | none => findTsMatch rest

/-- `extractFileTimestamp` from `src/main.go` (second variant): look for a
`\d{8}_\d{6}` substring in the filename; on a match parse it with layout
"20060102_150405" (an unparseable match is an error, which makes the caller
drop the line); with no match fall back to the S3 modification timestamp. -/
def extractFileTimestamp (filename : String) (s3Timestamp : GoTime) : Except String GoTime :=
  match findTsMatch filename.data with
  | some m =>
    match goTimeParseCompact m with
    | some t => Except.ok t
    | none => Except.error "unable to parse file timestamp"
  | none => Except.ok s3Timestamp

/-- Per-line outcome of the scanner loop body.  `crash` models a Go runtime
panic from indexing `fields` out of range, which aborts the whole process;
`skip` models `log.Printf` + `continue`. -/
inductive LineOutcome where
  | crash : LineOutcome
  | skip : LineOutcome
  | ok : FileStruct → LineOutcome
deriving DecidableEq

/-- Loop body of the first variant (`src/main.go` lines 54-76) on the field
list: fields 0 and 1 are indexed before the timestamp parse, field 2 before
the size parse, and field 3 is the filename; each index panics when the
field list is too short. -/
def parseFieldsV1 : List String → LineOutcome
  | f0 :: f1 :: rest =>
    match goTimeParse f0 f1 with
    | none => LineOutcome.skip
    | some ts =>
      match rest with
      | f2 :: rest2 =>
        match goParseInt f2 with
        | none => LineOutcome.skip
        | some size =>
          match rest2 with
          | f3 :: _ => LineOutcome.ok ⟨ts, size, f3, ts⟩
          | [] => LineOutcome.crash
      | [] => LineOutcome.crash
  | _ => LineOutcome.crash

/-- First-variant loop body on a raw line: split into fields, then parse. -/
def parseLineV1 (line : String) : LineOutcome :=
  parseFieldsV1 (goFields line)

/-- Loop body of the second variant (`src/main.go` lines 162-190) on the
field list: same field accesses, but the filename is
`strings.Join(fields[3:], " ")` (legal from three fields up) and the content
timestamp comes from `extractFileTimestamp`. -/
def parseFieldsV2 : List String → LineOutcome
  | f0 :: f1 :: rest =>
    match goTimeParse f0 f1 with
    | none => LineOutcome.skip
    | some s3ts =>
      match rest with
      | f2 :: rest2 =>
        match goParseInt f2 with
        | none => LineOutcome.skip
        | some size =>
          match extractFileTimestamp (String.intercalate " " rest2) s3ts with
          | Except.error _ => LineOutcome.skip
          | Except.ok fts =>
            LineOutcome.ok ⟨s3ts, size, String.intercalate " " rest2, fts⟩
      | [] => LineOutcome.crash
  | _ => LineOutcome.crash

/-- Second-variant loop body on a raw line. -/
def parseLineV2 (line : String) : LineOutcome :=
  parseFieldsV2 (goFields line)

/-- The scanner loop: build the record list in input order; a skipped line
contributes nothing, a crash aborts the run. -/
def processLines (parse : String → LineOutcome) : List String → Except String (List FileStruct)
  | [] => Except.ok []
  | line :: rest =>
    match parse line with
    | LineOutcome.crash => Except.error "panic: runtime error: index out of range"
    | LineOutcome.skip => processLines parse rest
    | LineOutcome.ok r => Except.map (fun l => r :: l) (processLines parse rest)

/-- `ByTimestamp.Less`: compare records by the content timestamp. -/
def lessByTimestamp (a b : FileStruct) : Bool :=
  a.FileTimestamp.before b.FileTimestamp

/-- `ByS3ModificationTime.Less`: compare records by the S3 modification
timestamp. -/
def lessByS3 (a b : FileStruct) : Bool :=
  a.S3ModificationTime.before b.S3ModificationTime

/-- Insert into a sorted list: the core of the comparison sort below. -/
def insertBy (le : FileStruct → FileStruct → Bool) (x : FileStruct) :
    List FileStruct → List FileStruct
  | [] => [x]
  | y :: ys => if le x y then x :: y :: ys else y :: insertBy le x ys

/-- Go `sort.Sort` guarantees exactly that the output is a permutation of the
input that is pairwise non-decreasing for the comparator (it is an unstable
comparison sort); insertion sort satisfies the same contract and stands in
for it. -/
def sortRecords (le : FileStruct → FileStruct → Bool) :
    List FileStruct → List FileStruct
  | [] => []
  | x :: xs => insertBy le x (sortRecords le xs)

/-- The non-strict order under which `sort.Sort(data)` leaves the slice
pairwise ordered: `le a b` iff not `Less(b, a)`. -/
def ascLe (less : FileStruct → FileStruct → Bool) (a b : FileStruct) : Bool :=
  ! less b a

/-- The non-strict order for `sort.Sort(sort.Reverse(data))`: `Reverse`
swaps the arguments of `Less`, so `le a b` iff not `Less(a, b)`. -/
def descLe (less : FileStruct → FileStruct → Bool) (a b : FileStruct) : Bool :=
  ! less a b

/-- The `switch *sortBy` block of `main` (identical in both variants):
"timestamp" sorts by the content timestamp, "s3" by the modification
timestamp, `*sortOrder == "desc"` selects the reversed comparator, any other
order value falls into the ascending branch, and any other sort key is a
`log.Fatal`. -/
def applySort (sortKey sortOrder : String) (files : List FileStruct) :
    Except String (List FileStruct) :=
  if sortKey = "timestamp" then
    Except.ok (if sortOrder = "desc" then sortRecords (descLe lessByTimestamp) files
      else sortRecords (ascLe lessByTimestamp) files)
  else if sortKey = "s3" then
    Except.ok (if sortOrder = "desc" then sortRecords (descLe lessByS3) files
      else sortRecords (ascLe lessByS3) files)
  else Except.error "Invalid sort option. Use \x27timestamp\x27 or \x27s3\x27."

/-- Two-digit zero padding, as Go `Format` emits for "01".."05" layout
elements. -/
def pad2 (n : Nat) : String :=
  if n < 10 then "0" ++ toString n else toString n

/-- Four-digit zero padding for the year element "2006". -/
def pad4 (n : Nat) : String :=
  if n < 10 then "000" ++ toString n
  else if n < 100 then "00" ++ toString n
  else if n < 1000 then "0" ++ toString n
  else toString n

/-- Go `t.Format("2006-01-02 15:04:05")`. -/
def formatGoTime (t : GoTime) : String :=
  pad4 t.year ++ "-" ++ pad2 t.month ++ "-" ++ pad2 t.day ++ " " ++
    pad2 t.hour ++ ":" ++ pad2 t.minute ++ ":" ++ pad2 t.second

/-- Go `uint64(x)` on an `int64`: two's-complement reinterpretation, i.e. the
value modulo 2^64. -/
def toUint64 (i : Int) : Nat :=
  (Int.emod i 18446744073709551616).toNat

/-- The SI size suffixes used by `humanize.Bytes`. -/
def bytesSuffixes : List String := ["B", "kB", "MB", "GB", "TB", "PB", "EB"]

/-- `math.Floor(logn(s, 1000))` for `s ≥ 10`: the largest `e` with
`1000^e ≤ s` (for a `uint64` argument `e ≤ 6`).  The Go original computes
this through `float64` logarithms; the exact integer characterisation is
used here. -/
def logFloor1000 (s : Nat) : Nat :=
  if s < 1000 then 0
  else if s < 1000000 then 1
  else if s < 1000000000 then 2
  else if s < 1000000000000 then 3
  else if s < 1000000000000000 then 4
  else if s < 1000000000000000000 then 5
  else 6

/-- `humanize.Bytes` (`humanateBytes` with base 1000): values below 10 are
printed as "<n> B"; otherwise the value is scaled by `1000^e`, rounded to one
decimal (`math.Floor(v*10+0.5)/10`, computed here exactly on integers), and
printed with one decimal when below 10 and as a `%.0f` integer (ties to
even) otherwise. -/
def humanizeBytes (s : Nat) : String :=
  if s < 10 then toString s ++ " B"
  else
    let e := logFloor1000 s
    let suffix := bytesSuffixes.getD e "B"
    let val10 := (20 * s + 1000 ^ e) / (2 * 1000 ^ e)
    if val10 < 100 then
      toString (val10 / 10) ++ "." ++ toString (val10 % 10) ++ " " ++ suffix
    else
      let q := val10 / 10
      let r := val10 % 10
      let rounded := if 5 < r then q + 1 else if r < 5 then q
        else if q % 2 = 0 then q else q + 1
      toString rounded ++ " " ++ suffix

/-- Go `Duration.Hours()`: the duration (int64 nanoseconds) over 3.6e12,
modelled as an exact rational where Go uses `float64`. -/
def goHours (d : Int) : ℚ := (d : ℚ) / 3600000000000

/-- Go `Duration.Minutes()`. -/
def goMinutes (d : Int) : ℚ := (d : ℚ) / 60000000000

/-- Go `Duration.Seconds()`. -/
def goSecondsQ (d : Int) : ℚ := (d : ℚ) / 1000000000

/-- Go `int(x)` on a float value: truncation toward zero. -/
def truncQ (q : ℚ) : Int := if 0 ≤ q then ⌊q⌋ else ⌈q⌉

/-- `days := int(duration.Hours() / 24)` in `formatRelativeTime`. -/
def relDays (d : Int) : Int := truncQ (goHours d / 24)

/-- `hours := int(duration.Hours()) % 24` (Go `%` truncates toward zero). -/
def relHours (d : Int) : Int := (truncQ (goHours d)).tmod 24

/-- `minutes := int(duration.Minutes()) % 60`. -/
def relMinutes (d : Int) : Int := (truncQ (goMinutes d)).tmod 60

/-- `seconds := int(duration.Seconds()) % 60`. -/
def relSeconds (d : Int) : Int := (truncQ (goSecondsQ d)).tmod 60

/-- `formatRelativeTime` from `src/main.go`: `duration := time.Since(ts)` is
`nowNs - ts.unixNano`; each component is appended only when strictly
positive. -/
def formatRelativeTime (nowNs : Int) (timestamp : GoTime) : String :=
  let d := nowNs - timestamp.unixNano
  (if 0 < relDays d then toString (relDays d) ++ "d " else "") ++
  (if 0 < relHours d then toString (relHours d) ++ "h " else "") ++
  (if 0 < relMinutes d then toString (relMinutes d) ++ "m " else "") ++
  (if 0 < relSeconds d then toString (relSeconds d) ++ "s" else "")

/-- The per-record report text shared by the `fmt.Printf` line and the
shell-script comments (the Printf line itself, newline included). -/
def recordSummary (nowNs : Int) (f : FileStruct) : String :=
  "S3 Modification Time: " ++ formatGoTime f.S3ModificationTime ++ ", " ++
    humanizeBytes (toUint64 f.FileSize) ++ ", " ++ f.Filename ++ ", age: " ++
    formatRelativeTime nowNs f.FileTimestamp ++ "\n"

/-- The `aws s3 rm` command line written to `rm.sh`, with the single-quote
shell escaping `strings.ReplaceAll(name, "\x27", "\x27\"\x27\"\x27")`. -/
def rmCommand (f : FileStruct) : String :=
  "aws s3 rm \x27s3://streamboxdineorb/" ++
    (f.Filename.replace "\x27" "\x27\"\x27\"\x27") ++ "\x27\n"

/-- The `aws s3 sync` command line written to `sync.sh`. -/
def syncCommand (f : FileStruct) : String :=
  "aws s3 sync \x27s3://streamboxdineorb\x27 /tmp/video --exclude=\x27*\x27 --include=\x27" ++
    f.Filename ++ "\x27\n"

/-- Lower-case hexadecimal digit, as in `encoding/json`. -/
def hexDigit (n : Nat) : String :=
  ["0", "1", "2", "3", "4", "5", "6", "7", "8", "9", "a", "b", "c", "d", "e", "f"].getD n "0"

/-- `encoding/json` string escaping with the default HTML escaping: quote,
backslash, newline, carriage return, tab, the HTML characters and the other
control characters (plus U+2028/U+2029) are escaped, everything else passes
through. -/
def jsonEscapeChar (c : Char) : String :=
  if c = '"' then "\\\""
  else if c = '\\' then "\\\\"
  else if c = '\n' then "\\n"
  else if c = '\r' then "\\r"
  else if c = '\t' then "\\t"
  else if c = '<' then "\\u003c"
  else if c = '>' then "\\u003e"
  else if c = '&' then "\\u0026"
  else if c.toNat < 32 then "\\u00" ++ hexDigit (c.toNat / 16) ++ hexDigit (c.toNat % 16)
  else if c = ' ' then "\\u2028"
  else if c = ' ' then "\\u2029"
  else String.singleton c

/-- A JSON string literal for `s`. -/
def jsonString (s : String) : String :=
  "\"" ++ String.join (s.data.map jsonEscapeChar) ++ "\""

/-- Zero-pad a decimal representation on the left to nine digits. -/
def padLeft9 (s : String) : String :=
  String.mk (List.replicate (9 - s.length) '0') ++ s

/-- The fractional-second part of the RFC 3339 rendering used by
`time.Time.MarshalJSON` (layout `RFC3339Nano`): omitted when zero, otherwise
a dot followed by the nine nanosecond digits with trailing zeros removed. -/
def fracJson (nsec : Nat) : String :=
  if nsec = 0 then ""
  else "." ++ String.mk (((padLeft9 (toString nsec)).data.reverse.dropWhile (fun c => c = '0')).reverse)

/-- `time.Time.MarshalJSON` for the UTC times this program produces: a quoted
RFC 3339 timestamp with a "Z" offset. -/
def timeJson (t : GoTime) : String :=
  "\"" ++ pad4 t.year ++ "-" ++ pad2 t.month ++ "-" ++ pad2 t.day ++ "T" ++
    pad2 t.hour ++ ":" ++ pad2 t.minute ++ ":" ++ pad2 t.second ++
    fracJson t.nsec ++ "Z\""

/-- One `FileStruct` as rendered inside the `json.MarshalIndent(files, "",
"  ")` array: prefix "  ", nested fields at four spaces. -/
def recordJsonIndented (f : FileStruct) : String :=
  "  \x7b\n    \"S3ModificationTime\": " ++ timeJson f.S3ModificationTime ++
    ",\n    \"FileSize\": " ++ toString f.FileSize ++
    ",\n    \"Filename\": " ++ jsonString f.Filename ++
    ",\n    \"FileTimestamp\": " ++ timeJson f.FileTimestamp ++ "\n  \x7d"

/-- `json.MarshalIndent(files, "", "  ")`: the `files` slice is only ever
`nil` (encoded "null") or non-empty; a non-empty slice becomes an indented
array of record objects. -/
def marshalIndentRecords (l : List FileStruct) : String :=
  if l.isEmpty then "null"
  else "[\n" ++ String.intercalate ",\n" (l.map recordJsonIndented) ++ "\n]"

/-- Snapshot of the observable state of a run of the second variant: the
text written to stdout (one entry per write, newlines included) and the file
system, as a map from file name to content. -/
structure RunState where
  output : List String
  fs : String → Option String

/-- `os.Remove`. -/
def fsRemove (fs : String → Option String) (name : String) : String → Option String :=
  fun n => if n = name then none else fs n

/-- `writeToFile`: append-mode write, creating the file when absent. -/
def fsAppend (fs : String → Option String) (name content : String) :
    String → Option String :=
  fun n => if n = name then some ((fs name).getD "" ++ content) else fs n

/-- `os.Create` followed by `Write`: truncate-and-write. -/
def fsWrite (fs : String → Option String) (name content : String) :
    String → Option String :=
  fun n => if n = name then some content else fs n

/-- The comment-plus-command block appended to `rm.sh` for one record. -/
def recordEntryRm (nowNs : Int) (f : FileStruct) : String :=
  "# " ++ recordSummary nowNs f ++ rmCommand f

/-- The comment-plus-command block appended to `sync.sh` for one record. -/
def recordEntrySync (nowNs : Int) (f : FileStruct) : String :=
  "# " ++ recordSummary nowNs f ++ syncCommand f

/-- The body of the per-record loop of the second variant: print the report
line, append the commented rm command to `rm.sh` and the commented sync
command to `sync.sh`. -/
def stepRecord (nowNs : Int) (st : RunState) (f : FileStruct) : RunState :=
  ⟨st.output ++ [recordSummary nowNs f],
   fsAppend (fsAppend st.fs "rm.sh" (recordEntryRm nowNs f)) "sync.sh"
     (recordEntrySync nowNs f)⟩

/-- Total script content produced for a record list, in order. -/
def scriptBody (entry : FileStruct → String) (l : List FileStruct) : String :=
  l.foldl (fun acc f => acc ++ entry f) ""

/-- The part of the second variant's `main` that runs once the records are
sorted: delete any pre-existing `rm.sh`/`sync.sh`, print the header and one
line per record while appending to both scripts, then write
`results.json`. -/
def runSortedOk (nowNs : Int) (sorted : List FileStruct)
    (fs0 : String → Option String) : RunState :=
  let fs1 := fsRemove (fsRemove fs0 "rm.sh") "sync.sh"
  let st := sorted.foldl (stepRecord nowNs) ⟨["Sorted Files:\n"], fs1⟩
  ⟨st.output ++ ["Results saved to results.json\n"],
    fsWrite st.fs "results.json" (marshalIndentRecords sorted)⟩

/-- `main` of the second variant after flag parsing, for an input that was
read successfully: parse all lines (a panic aborts), sort (an unknown sort
key is fatal before anything is printed or touched on disk), then run the
reporting stage on the sorted records. -/
def runVariant2 (sortKey sortOrder : String) (nowNs : Int) (inputLines : List String)
    (fs0 : String → Option String) : Except String RunState :=
  Except.bind (processLines parseLineV2 inputLines) fun files =>
    Except.map (fun sorted => runSortedOk nowNs sorted fs0)
      (applySort sortKey sortOrder files)

/-- C1: the spec says a line with fewer than 4 whitespace-separated fields is
dropped and never aborts the run.  The code indexes `fields[0]`, `fields[1]`,
`fields[2]` (and, in the first variant, `fields[3]`) without a length check,
so an empty line, or a short line whose present fields parse, panics with an
index-out-of-range runtime error and aborts the whole run before any later
line is processed. -/
theorem c1_short_line_crashes :
    parseLineV1 "" = LineOutcome.crash ∧
    parseLineV2 "" = LineOutcome.crash ∧
    parseLineV1 "2023-01-15 08:30:00" = LineOutcome.crash ∧
    parseLineV1 "2023-01-15 08:30:00 1024" = LineOutcome.crash ∧
    processLines parseLineV2 ["2023-01-15 08:30:00", "2023-01-15 08:30:00 1024 a.mp4"] =
      Except.error "panic: runtime error: index out of range" :=
  ⟨rfl, rfl, rfl, rfl, rfl⟩

/-- C2 counterexample: on filename "video_99999999_999999.mp4" the regex
finds the substring "99999999_999999", but it does not parse (month 99), so
the extractor returns an error and the line is dropped — the found substring
does not become any record's content timestamp, contradicting the claim as
stated. -/
theorem c2_found_match_not_timestamp :
    (findTsMatch ("video_99999999_999999.mp4").data).isSome = true ∧
    extractFileTimestamp "video_99999999_999999.mp4" ⟨2023, 1, 1, 0, 0, 0, 0⟩ =
      Except.error "unable to parse file timestamp" :=
  ⟨rfl, rfl⟩

/-- C2 (amended): the extractor searches for the first `\d{8}_\d{6}`
substring; when none exists the content timestamp is the modification
timestamp; when one exists and parses as "YYYYMMDD_HHMMSS" it becomes the
content timestamp; when one exists but does not parse the extractor errors
(and the caller drops the line).  The two example filenames behave as the
claim states, for every modification timestamp. -/
theorem c2_extract_first_match (filename : String) (ts : GoTime) :
    (findTsMatch filename.data = none → extractFileTimestamp filename ts = Except.ok ts) ∧
    (∀ m, findTsMatch filename.data = some m →
      (∀ t, goTimeParseCompact m = some t →
        extractFileTimestamp filename ts = Except.ok t) ∧
      (goTimeParseCompact m = none →
        extractFileTimestamp filename ts = Except.error "unable to parse file timestamp")) ∧
    extractFileTimestamp "video_20230115_083000.mp4" ts =
      Except.ok ⟨2023, 1, 15, 8, 30, 0, 0⟩ ∧
    extractFileTimestamp "video.mp4" ts = Except.ok ts := by
  refine ⟨?_, ?_, rfl, rfl⟩
  · intro h
    simp [extractFileTimestamp, h]
  · intro m hm
    constructor
    · intro t ht
      simp [extractFileTimestamp, hm, ht]
    · intro ht
      simp [extractFileTimestamp, hm, ht]

/-- Witness for `c2_extract_first_match` at concrete inputs, discharging the
hypotheses of its first two conjuncts. -/
theorem c2_extract_first_match_witness :
    extractFileTimestamp "video.mp4" ⟨2024, 6, 1, 12, 0, 0, 0⟩ =
      Except.ok ⟨2024, 6, 1, 12, 0, 0, 0⟩ ∧
    extractFileTimestamp "video_20230115_083000.mp4" ⟨2024, 6, 1, 12, 0, 0, 0⟩ =
      Except.ok ⟨2023, 1, 15, 8, 30, 0, 0⟩ :=
  ⟨(c2_extract_first_match "video.mp4" ⟨2024, 6, 1, 12, 0, 0, 0⟩).1 rfl,
   ((c2_extract_first_match "video_20230115_083000.mp4" ⟨2024, 6, 1, 12, 0, 0, 0⟩).2.1
      "20230115_083000".data rfl).1 ⟨2023, 1, 15, 8, 30, 0, 0⟩ rfl⟩

/-- C5: a line with at least four whitespace-separated fields whose first
two fields do not parse as a "YYYY-MM-DD HH:MM:SS" timestamp, or whose third
field is not an integer, is skipped (in both variants), no record is
appended for it, and processing continues with the next line. -/
theorem c5_parse_failure_skips (line : String) (f0 f1 f2 f3 : String)
    (rest ls : List String)
    (hfields : goFields line = f0 :: f1 :: f2 :: f3 :: rest)
    (hbad : goTimeParse f0 f1 = none ∨ goParseInt f2 = none) :
    parseLineV1 line = LineOutcome.skip ∧ parseLineV2 line = LineOutcome.skip ∧
    processLines parseLineV1 (line :: ls) = processLines parseLineV1 ls ∧
    processLines parseLineV2 (line :: ls) = processLines parseLineV2 ls := by
  have h1 : parseLineV1 line = LineOutcome.skip := by
    rw [parseLineV1, hfields]
    rcases hbad with h | h
    · simp [parseFieldsV1, h]
    · cases hts : goTimeParse f0 f1 <;> simp [parseFieldsV1, h, hts]
  have h2 : parseLineV2 line = LineOutcome.skip := by
    rw [parseLineV2, hfields]
    rcases hbad with h | h
    · simp [parseFieldsV2, h]
    · cases hts : goTimeParse f0 f1 <;> simp [parseFieldsV2, h, hts]
  refine ⟨h1, h2, ?_, ?_⟩
  · rw [processLines, h1]
  · rw [processLines, h2]

/-- Witness for `c5_parse_failure_skips`: month 13 makes the timestamp
unparseable. -/
theorem c5_parse_failure_skips_witness :
    parseLineV1 "2023-13-01 08:30:00 1024 a.mp4" = LineOutcome.skip ∧
    parseLineV2 "2023-13-01 08:30:00 1024 a.mp4" = LineOutcome.skip ∧
    processLines parseLineV1 ["2023-13-01 08:30:00 1024 a.mp4"] = processLines parseLineV1 [] ∧
    processLines parseLineV2 ["2023-13-01 08:30:00 1024 a.mp4"] = processLines parseLineV2 [] :=
  c5_parse_failure_skips "2023-13-01 08:30:00 1024 a.mp4" "2023-13-01" "08:30:00"
    "1024" "a.mp4" [] [] rfl (Or.inl rfl)

/-- Insertion keeps the list a permutation of the element consed on. -/
theorem insertBy_perm (le : FileStruct → FileStruct → Bool) (x : FileStruct)
    (l : List FileStruct) : List.Perm (insertBy le x l) (x :: l) := by
  induction l with
  | nil => exact List.Perm.refl _
  | cons y ys ih =>
    rw [insertBy]
    by_cases h : le x y = true
    · simp [h]
    · simp only [h, if_false]
      exact (ih.cons y).trans (List.Perm.swap x y ys)

/-- The model sort returns a permutation of its input. -/
theorem sortRecords_perm (le : FileStruct → FileStruct → Bool) (l : List FileStruct) :
    List.Perm (sortRecords le l) l := by
  induction l with
  | nil => exact List.Perm.refl _
  | cons x xs ih => exact (insertBy_perm le x (sortRecords le xs)).trans (ih.cons x)

/-- Insertion preserves pairwise ordering for a comparator that mirrors a
total integer key. -/
theorem insertBy_pairwise (k : FileStruct → Int) (le : FileStruct → FileStruct → Bool)
    (hk : ∀ a b, le a b = true ↔ k a ≤ k b) (x : FileStruct) (l : List FileStruct)
    (hl : l.Pairwise (fun a b => le a b = true)) :
    (insertBy le x l).Pairwise (fun a b => le a b = true) := by
  induction l with
  | nil => simp [insertBy]
  | cons y ys ih =>
    rw [insertBy]
    rcases List.pairwise_cons.mp hl with ⟨hy, hys⟩
    by_cases h : le x y = true
    · rw [if_pos h]
      refine List.pairwise_cons.mpr ⟨?_, hl⟩
      intro z hz
      rcases List.mem_cons.mp hz with rfl | hz
      · exact h
      · have hxy := (hk x y).mp h
        have hyz := (hk y z).mp (hy z hz)
        exact (hk x z).mpr (by omega)
    · rw [if_neg h]
      refine List.pairwise_cons.mpr ⟨?_, ih hys⟩
      intro z hz
      have hz2 : z = x ∨ z ∈ ys := by
        have hmem := (insertBy_perm le x ys).mem_iff.mp hz
        simpa using hmem
      rcases hz2 with hz1 | hz2
      · rw [hz1]
        have h1 : ¬ k x ≤ k y := fun hc => h ((hk x y).mpr hc)
        exact (hk y x).mpr (by omega)
      · exact hy z hz2

/-- The model sort leaves the list pairwise ordered for the comparator. -/
theorem sortRecords_pairwise (k : FileStruct → Int) (le : FileStruct → FileStruct → Bool)
    (hk : ∀ a b, le a b = true ↔ k a ≤ k b) (l : List FileStruct) :
    (sortRecords le l).Pairwise (fun a b => le a b = true) := by
  induction l with
  | nil => simp [sortRecords]
  | cons x xs ih => exact insertBy_pairwise k le hk x _ ih

/-- Sorting any permutation of three records with strictly increasing keys
yields exactly the key-ordered triple. -/
theorem sortRecords_eq_triple (k : FileStruct → Int) (le : FileStruct → FileStruct → Bool)
    (hk : ∀ a b, le a b = true ↔ k a ≤ k b) (r1 r2 r3 : FileStruct) (l : List FileStruct)
    (hperm : List.Perm l [r1, r2, r3]) (h12 : k r1 < k r2) (h23 : k r2 < k r3) :
    sortRecords le l = [r1, r2, r3] := by
  have hp : List.Perm (sortRecords le l) [r1, r2, r3] := (sortRecords_perm le l).trans hperm
  have hpw := sortRecords_pairwise k le hk l
  have hne3 : List.Pairwise (fun a b => k a ≠ k b) [r1, r2, r3] := by
    refine List.Pairwise.cons ?_ (List.Pairwise.cons ?_ (List.pairwise_singleton _ _))
    · intro z hz
      rcases List.mem_cons.mp hz with rfl | hz
      · omega
      · rcases List.mem_cons.mp hz with rfl | hz
        · omega
        · simp at hz
    · intro z hz
      rcases List.mem_cons.mp hz with rfl | hz
      · omega
      · simp at hz
  have hsymm : Symmetric (fun a b : FileStruct => k a ≠ k b) :=
    fun _ _ h e => h e.symm
  have hne : (sortRecords le l).Pairwise (fun a b => k a ≠ k b) :=
    (hp.pairwise_iff (fun h => hsymm h)).mpr hne3
  have hlt : (sortRecords le l).Pairwise (fun a b => k a < k b) :=
    (hpw.and hne).imp (fun h => lt_of_le_of_ne ((hk _ _).mp h.1) h.2)
  have hlt3 : List.Pairwise (fun a b : FileStruct => k a < k b) [r1, r2, r3] := by
    refine List.Pairwise.cons ?_ (List.Pairwise.cons ?_ (List.pairwise_singleton _ _))
    · intro z hz
      rcases List.mem_cons.mp hz with rfl | hz
      · omega
      · rcases List.mem_cons.mp hz with rfl | hz
        · omega
        · simp at hz
    · intro z hz
      rcases List.mem_cons.mp hz with rfl | hz
      · omega
      · simp at hz
  haveI : IsAntisymm FileStruct (fun a b => k a < k b) :=
    ⟨fun _ _ hab hba => absurd (lt_trans hab hba) (lt_irrefl _)⟩
  exact List.eq_of_perm_of_sorted hp hlt hlt3

/-- `sort.Sort(ByTimestamp(files))` leaves the slice non-decreasing in the
content timestamp. -/
theorem ascLe_timestamp_iff (a b : FileStruct) :
    ascLe lessByTimestamp a b = true ↔
      a.FileTimestamp.unixNano ≤ b.FileTimestamp.unixNano := by
  simp [ascLe, lessByTimestamp, GoTime.before, not_lt]

/-- `sort.Sort(sort.Reverse(ByTimestamp(files)))`: the reversed comparator
mirrors the negated key. -/
theorem descLe_timestamp_iff (a b : FileStruct) :
    descLe lessByTimestamp a b = true ↔
      -a.FileTimestamp.unixNano ≤ -b.FileTimestamp.unixNano := by
  simp [descLe, lessByTimestamp, GoTime.before, not_lt]

/-- `sort.Sort(ByS3ModificationTime(files))` ordering. -/
theorem ascLe_s3_iff (a b : FileStruct) :
    ascLe lessByS3 a b = true ↔
      a.S3ModificationTime.unixNano ≤ b.S3ModificationTime.unixNano := by
  simp [ascLe, lessByS3, GoTime.before, not_lt]

/-- `sort.Sort(sort.Reverse(ByS3ModificationTime(files)))` ordering. -/
theorem descLe_s3_iff (a b : FileStruct) :
    descLe lessByS3 a b = true ↔
      -a.S3ModificationTime.unixNano ≤ -b.S3ModificationTime.unixNano := by
  simp [descLe, lessByS3, GoTime.before, not_lt]

/-- An explicit three-element reversal permutation. -/
theorem perm_triple_rev (r1 r2 r3 : FileStruct) :
    List.Perm [r1, r2, r3] [r3, r2, r1] := by
  have a1 : List.Perm [r1, r2, r3] [r1, r3, r2] :=
    List.Perm.cons r1 (List.Perm.swap r3 r2 [])
  have a2 : List.Perm [r1, r3, r2] [r3, r1, r2] := List.Perm.swap r3 r1 [r2]
  have a3 : List.Perm [r3, r1, r2] [r3, r2, r1] :=
    List.Perm.cons r3 (List.Perm.swap r2 r1 [])
  exact (a1.trans a2).trans a3

/-- C3: on any arrangement of three records whose content timestamps and
modification timestamps are both strictly increasing (T1 before T2 before
T3), the four flag combinations produce exactly the four claimed orders:
ascending gives T1, T2, T3 and descending gives T3, T2, T1, for either
key. -/
theorem c3_four_orderings (r1 r2 r3 : FileStruct) (l : List FileStruct)
    (hperm : List.Perm l [r1, r2, r3])
    (ht12 : r1.FileTimestamp.before r2.FileTimestamp = true)
    (ht23 : r2.FileTimestamp.before r3.FileTimestamp = true)
    (hs12 : r1.S3ModificationTime.before r2.S3ModificationTime = true)
    (hs23 : r2.S3ModificationTime.before r3.S3ModificationTime = true) :
    applySort "timestamp" "asc" l = Except.ok [r1, r2, r3] ∧
    applySort "timestamp" "desc" l = Except.ok [r3, r2, r1] ∧
    applySort "s3" "asc" l = Except.ok [r1, r2, r3] ∧
    applySort "s3" "desc" l = Except.ok [r3, r2, r1] := by
  have ht12i : r1.FileTimestamp.unixNano < r2.FileTimestamp.unixNano := by
    simpa [GoTime.before] using ht12
  have ht23i : r2.FileTimestamp.unixNano < r3.FileTimestamp.unixNano := by
    simpa [GoTime.before] using ht23
  have hs12i : r1.S3ModificationTime.unixNano < r2.S3ModificationTime.unixNano := by
    simpa [GoTime.before] using hs12
  have hs23i : r2.S3ModificationTime.unixNano < r3.S3ModificationTime.unixNano := by
    simpa [GoTime.before] using hs23
  have hperm2 : List.Perm l [r3, r2, r1] := hperm.trans (perm_triple_rev r1 r2 r3)
  refine ⟨?_, ?_, ?_, ?_⟩
  · rw [applySort, if_pos rfl, if_neg (by decide)]
    rw [sortRecords_eq_triple (fun r => r.FileTimestamp.unixNano) _
      ascLe_timestamp_iff r1 r2 r3 l hperm ht12i ht23i]
  · rw [applySort, if_pos rfl, if_pos rfl]
    rw [sortRecords_eq_triple (fun r => -r.FileTimestamp.unixNano) _
      descLe_timestamp_iff r3 r2 r1 l hperm2
      (by show -r3.FileTimestamp.unixNano < -r2.FileTimestamp.unixNano; omega)
      (by show -r2.FileTimestamp.unixNano < -r1.FileTimestamp.unixNano; omega)]
  · rw [applySort, if_neg (by decide), if_pos rfl, if_neg (by decide)]
    rw [sortRecords_eq_triple (fun r => r.S3ModificationTime.unixNano) _
      ascLe_s3_iff r1 r2 r3 l hperm hs12i hs23i]
  · rw [applySort, if_neg (by decide), if_pos rfl, if_pos rfl]
    rw [sortRecords_eq_triple (fun r => -r.S3ModificationTime.unixNano) _
      descLe_s3_iff r3 r2 r1 l hperm2
      (by show -r3.S3ModificationTime.unixNano < -r2.S3ModificationTime.unixNano; omega)
      (by show -r2.S3ModificationTime.unixNano < -r1.S3ModificationTime.unixNano; omega)]

/-- Witness for `c3_four_orderings` on three concrete records presented out
of order. -/
theorem c3_four_orderings_witness :
    applySort "timestamp" "asc"
        [⟨⟨2023,2,1,0,0,0,0⟩, 2, "b", ⟨2023,2,1,0,0,0,0⟩⟩,
         ⟨⟨2023,3,1,0,0,0,0⟩, 3, "c", ⟨2023,3,1,0,0,0,0⟩⟩,
         ⟨⟨2023,1,1,0,0,0,0⟩, 1, "a", ⟨2023,1,1,0,0,0,0⟩⟩] =
      Except.ok
        [⟨⟨2023,1,1,0,0,0,0⟩, 1, "a", ⟨2023,1,1,0,0,0,0⟩⟩,
         ⟨⟨2023,2,1,0,0,0,0⟩, 2, "b", ⟨2023,2,1,0,0,0,0⟩⟩,
         ⟨⟨2023,3,1,0,0,0,0⟩, 3, "c", ⟨2023,3,1,0,0,0,0⟩⟩] ∧
    applySort "timestamp" "desc"
        [⟨⟨2023,2,1,0,0,0,0⟩, 2, "b", ⟨2023,2,1,0,0,0,0⟩⟩,
         ⟨⟨2023,3,1,0,0,0,0⟩, 3, "c", ⟨2023,3,1,0,0,0,0⟩⟩,
         ⟨⟨2023,1,1,0,0,0,0⟩, 1, "a", ⟨2023,1,1,0,0,0,0⟩⟩] =
      Except.ok
        [⟨⟨2023,3,1,0,0,0,0⟩, 3, "c", ⟨2023,3,1,0,0,0,0⟩⟩,
         ⟨⟨2023,2,1,0,0,0,0⟩, 2, "b", ⟨2023,2,1,0,0,0,0⟩⟩,
         ⟨⟨2023,1,1,0,0,0,0⟩, 1, "a", ⟨2023,1,1,0,0,0,0⟩⟩] := by
  have h := c3_four_orderings
    ⟨⟨2023,1,1,0,0,0,0⟩, 1, "a", ⟨2023,1,1,0,0,0,0⟩⟩
    ⟨⟨2023,2,1,0,0,0,0⟩, 2, "b", ⟨2023,2,1,0,0,0,0⟩⟩
    ⟨⟨2023,3,1,0,0,0,0⟩, 3, "c", ⟨2023,3,1,0,0,0,0⟩⟩
    [⟨⟨2023,2,1,0,0,0,0⟩, 2, "b", ⟨2023,2,1,0,0,0,0⟩⟩,
     ⟨⟨2023,3,1,0,0,0,0⟩, 3, "c", ⟨2023,3,1,0,0,0,0⟩⟩,
     ⟨⟨2023,1,1,0,0,0,0⟩, 1, "a", ⟨2023,1,1,0,0,0,0⟩⟩]
    (by decide) (by decide) (by decide) (by decide) (by decide)
  exact ⟨h.1, h.2.1⟩

/-- C9: whatever valid key/order combination is selected, the sorted output
is a permutation of the parsed records - nothing is added, dropped or
modified. -/
theorem c9_sort_is_permutation (sortKey sortOrder : String)
    (files out : List FileStruct)
    (h : applySort sortKey sortOrder files = Except.ok out) :
    List.Perm out files := by
  rw [applySort] at h
  split_ifs at h <;>
    injection h with h2 <;>
    subst h2 <;>
    exact sortRecords_perm _ files

/-- Witness for `c9_sort_is_permutation`. -/
theorem c9_sort_is_permutation_witness :
    List.Perm
      [(⟨⟨2023,1,1,0,0,0,0⟩, 1, "a", ⟨2023,1,1,0,0,0,0⟩⟩ : FileStruct)]
      [⟨⟨2023,1,1,0,0,0,0⟩, 1, "a", ⟨2023,1,1,0,0,0,0⟩⟩] :=
  c9_sort_is_permutation "timestamp" "asc"
    [⟨⟨2023,1,1,0,0,0,0⟩, 1, "a", ⟨2023,1,1,0,0,0,0⟩⟩]
    [⟨⟨2023,1,1,0,0,0,0⟩, 1, "a", ⟨2023,1,1,0,0,0,0⟩⟩] rfl

/-- C10: any `-order` value other than exactly "desc" (a misspelling,
"DESC", the empty string, ...) silently selects ascending order for either
sort key; it is never a fatal error. -/
theorem c10_unknown_order_is_ascending (sortOrder : String) (files : List FileStruct)
    (h : sortOrder ≠ "desc") :
    applySort "timestamp" sortOrder files =
      Except.ok (sortRecords (ascLe lessByTimestamp) files) ∧
    applySort "s3" sortOrder files =
      Except.ok (sortRecords (ascLe lessByS3) files) ∧
    applySort "timestamp" sortOrder files = applySort "timestamp" "asc" files ∧
    applySort "s3" sortOrder files = applySort "s3" "asc" files := by
  have e1 : applySort "timestamp" sortOrder files =
      Except.ok (sortRecords (ascLe lessByTimestamp) files) := by
    rw [applySort, if_pos rfl, if_neg h]
  have e2 : applySort "s3" sortOrder files =
      Except.ok (sortRecords (ascLe lessByS3) files) := by
    rw [applySort, if_neg (by decide), if_pos rfl, if_neg h]
  have e3 : applySort "timestamp" "asc" files =
      Except.ok (sortRecords (ascLe lessByTimestamp) files) := by
    rw [applySort, if_pos rfl, if_neg (by decide)]
  have e4 : applySort "s3" "asc" files =
      Except.ok (sortRecords (ascLe lessByS3) files) := by
    rw [applySort, if_neg (by decide), if_pos rfl, if_neg (by decide)]
  exact ⟨e1, e2, e1.trans e3.symm, e2.trans e4.symm⟩

/-- Witness for `c10_unknown_order_is_ascending` at the value "DESC". -/
theorem c10_unknown_order_is_ascending_witness :
    applySort "timestamp" "DESC" [] = Except.ok (sortRecords (ascLe lessByTimestamp) []) ∧
    applySort "s3" "DESC" [] = Except.ok (sortRecords (ascLe lessByS3) []) ∧
    applySort "timestamp" "DESC" [] = applySort "timestamp" "asc" [] ∧
    applySort "s3" "DESC" [] = applySort "s3" "asc" [] :=
  c10_unknown_order_is_ascending "DESC" [] (by decide)

/-- C4: a `-sort` value other than "timestamp" or "s3" reaches the
`log.Fatal` default branch of the switch, which runs before anything is
printed, before the script files are touched, and before the structured
dump is written: the whole run aborts with an error and produces no
`RunState` at all. -/
theorem c4_invalid_sort_key_fatal (sortKey sortOrder : String) (nowNs : Int)
    (inputLines : List String) (fs0 : String → Option String)
    (h1 : sortKey ≠ "timestamp") (h2 : sortKey ≠ "s3") :
    ∃ e, runVariant2 sortKey sortOrder nowNs inputLines fs0 = Except.error e := by
  rw [runVariant2]
  cases hp : processLines parseLineV2 inputLines with
  | error e => exact ⟨e, rfl⟩
  | ok files =>
    have ha : applySort sortKey sortOrder files =
        Except.error "Invalid sort option. Use \x27timestamp\x27 or \x27s3\x27." := by
      rw [applySort, if_neg h1, if_neg h2]
    refine ⟨"Invalid sort option. Use \x27timestamp\x27 or \x27s3\x27.", ?_⟩
    show Except.map (fun sorted => runSortedOk nowNs sorted fs0)
      (applySort sortKey sortOrder files) = _
    rw [ha]
    rfl

/-- Witness for `c4_invalid_sort_key_fatal` at `-sort size`. -/
theorem c4_invalid_sort_key_fatal_witness :
    ∃ e, runVariant2 "size" "asc" 0 ["2023-01-15 08:30:00 1024 a.mp4"] (fun _ => none) =
      Except.error e :=
  c4_invalid_sort_key_fatal "size" "asc" 0 ["2023-01-15 08:30:00 1024 a.mp4"]
    (fun _ => none) (by decide) (by decide)

/-- C6: whenever a line is accepted, the record's fields are exactly the
literal field values: the modification timestamp is the parse of fields 1-2,
the size is the integer value of field 3, and the filename is field 4 in the
first variant and the re-join of fields 4.. in the second variant (whose
content timestamp is the extractor's answer on that filename). -/
theorem c6_wellformed_literal_fields (line : String) (f0 f1 f2 : String)
    (rest : List String) (hfields : goFields line = f0 :: f1 :: f2 :: rest) :
    (∀ r, parseLineV1 line = LineOutcome.ok r →
      goTimeParse f0 f1 = some r.S3ModificationTime ∧
      goParseInt f2 = some r.FileSize ∧
      rest.head? = some r.Filename ∧
      r.FileTimestamp = r.S3ModificationTime) ∧
    (∀ r, parseLineV2 line = LineOutcome.ok r →
      goTimeParse f0 f1 = some r.S3ModificationTime ∧
      goParseInt f2 = some r.FileSize ∧
      r.Filename = String.intercalate " " rest ∧
      extractFileTimestamp r.Filename r.S3ModificationTime = Except.ok r.FileTimestamp) := by
  constructor
  · intro r hr
    rw [parseLineV1, hfields] at hr
    cases hts : goTimeParse f0 f1 with
    | none => simp [parseFieldsV1, hts] at hr
    | some ts =>
      simp only [parseFieldsV1, hts] at hr
      cases hint : goParseInt f2 with
      | none => simp [hint] at hr
      | some n =>
        simp only [hint] at hr
        cases rest with
        | nil => simp at hr
        | cons f3 rest2 =>
          simp only [LineOutcome.ok.injEq] at hr
          subst hr
          exact ⟨rfl, rfl, rfl, rfl⟩
  · intro r hr
    rw [parseLineV2, hfields] at hr
    cases hts : goTimeParse f0 f1 with
    | none => simp [parseFieldsV2, hts] at hr
    | some ts =>
      simp only [parseFieldsV2, hts] at hr
      cases hint : goParseInt f2 with
      | none => simp [hint] at hr
      | some n =>
        simp only [hint] at hr
        cases hext : extractFileTimestamp (String.intercalate " " rest) ts with
        | error e => simp [hext] at hr
        | ok ft =>
          simp only [hext, LineOutcome.ok.injEq] at hr
          subst hr
          exact ⟨rfl, rfl, rfl, hext⟩

/-- Witness for `c6_wellformed_literal_fields` on a concrete well-formed
line, exercising both variants. -/
theorem c6_wellformed_literal_fields_witness :
    goTimeParse "2023-01-15" "08:30:00" = some ⟨2023, 1, 15, 8, 30, 0, 0⟩ ∧
    goParseInt "1024" = some 1024 ∧
    (["video.mp4"] : List String).head? = some "video.mp4" ∧
    extractFileTimestamp "video.mp4" ⟨2023, 1, 15, 8, 30, 0, 0⟩ =
      Except.ok ⟨2023, 1, 15, 8, 30, 0, 0⟩ := by
  have h := c6_wellformed_literal_fields "2023-01-15 08:30:00 1024 video.mp4"
    "2023-01-15" "08:30:00" "1024" ["video.mp4"] rfl
  have h1 := h.1 ⟨⟨2023, 1, 15, 8, 30, 0, 0⟩, 1024, "video.mp4", ⟨2023, 1, 15, 8, 30, 0, 0⟩⟩ rfl
  have h2 := h.2 ⟨⟨2023, 1, 15, 8, 30, 0, 0⟩, 1024, "video.mp4", ⟨2023, 1, 15, 8, 30, 0, 0⟩⟩ rfl
  exact ⟨h1.1, h1.2.1, h1.2.2.1, h2.2.2.2⟩

/-- C8: for a record whose content timestamp is in the past at evaluation
time (`time.Since` is non-negative), all four components of the rendered
relative age are non-negative, and `humanize.Bytes` renders the example size
1024 as the byte-count string "1.0 kB". -/
theorem c8_age_nonneg_and_size_humanized (nowNs : Int) (t : GoTime)
    (hpast : t.unixNano ≤ nowNs) :
    0 ≤ relDays (nowNs - t.unixNano) ∧
    0 ≤ relHours (nowNs - t.unixNano) ∧
    0 ≤ relMinutes (nowNs - t.unixNano) ∧
    0 ≤ relSeconds (nowNs - t.unixNano) ∧
    humanizeBytes 1024 = "1.0 kB" := by
  have hd0 : (0 : Int) ≤ nowNs - t.unixNano := by omega
  have hdq : (0 : ℚ) ≤ ((nowNs - t.unixNano : Int) : ℚ) := by exact_mod_cast hd0
  have htr : ∀ q : ℚ, 0 ≤ q → 0 ≤ truncQ q := by
    intro q hq0
    rw [truncQ, if_pos hq0]
    exact Int.floor_nonneg.mpr hq0
  have hH : 0 ≤ goHours (nowNs - t.unixNano) := by
    rw [goHours]; positivity
  have hM : 0 ≤ goMinutes (nowNs - t.unixNano) := by
    rw [goMinutes]; positivity
  have hS : 0 ≤ goSecondsQ (nowNs - t.unixNano) := by
    rw [goSecondsQ]; positivity
  refine ⟨?_, ?_, ?_, ?_, rfl⟩
  · exact htr _ (by positivity)
  · exact Int.tmod_nonneg 24 (htr _ hH)
  · exact Int.tmod_nonneg 60 (htr _ hM)
  · exact Int.tmod_nonneg 60 (htr _ hS)

/-- Witness for `c8_age_nonneg_and_size_humanized`: the example record's
content timestamp 2023-01-15 08:30:00 evaluated in late 2023. -/
theorem c8_age_nonneg_and_size_humanized_witness :
    0 ≤ relDays (1700000000000000000 - GoTime.unixNano ⟨2023, 1, 15, 8, 30, 0, 0⟩) ∧
    0 ≤ relHours (1700000000000000000 - GoTime.unixNano ⟨2023, 1, 15, 8, 30, 0, 0⟩) ∧
    0 ≤ relMinutes (1700000000000000000 - GoTime.unixNano ⟨2023, 1, 15, 8, 30, 0, 0⟩) ∧
    0 ≤ relSeconds (1700000000000000000 - GoTime.unixNano ⟨2023, 1, 15, 8, 30, 0, 0⟩) ∧
    humanizeBytes 1024 = "1.0 kB" :=
  c8_age_nonneg_and_size_humanized 1700000000000000000 ⟨2023, 1, 15, 8, 30, 0, 0⟩
    (by decide)

/-- Appending under one name reads back the old content plus the new. -/
theorem fsAppend_same (fs : String → Option String) (name c : String) :
    fsAppend fs name c name = some ((fs name).getD "" ++ c) := by
  simp [fsAppend]

/-- Appending under one name leaves every other name unchanged. -/
theorem fsAppend_other (fs : String → Option String) (name c n : String)
    (h : n ≠ name) : fsAppend fs name c n = fs n := by
  simp [fsAppend, h]

/-- Removing a name deletes it. -/
theorem fsRemove_same (fs : String → Option String) (name : String) :
    fsRemove fs name name = none := by
  simp [fsRemove]

/-- Removing a name leaves every other name unchanged. -/
theorem fsRemove_other (fs : String → Option String) (name n : String)
    (h : n ≠ name) : fsRemove fs name n = fs n := by
  simp [fsRemove, h]

/-- Writing a name replaces its content. -/
theorem fsWrite_same (fs : String → Option String) (name c : String) :
    fsWrite fs name c name = some c := by
  simp [fsWrite]

/-- Writing a name leaves every other name unchanged. -/
theorem fsWrite_other (fs : String → Option String) (name c n : String)
    (h : n ≠ name) : fsWrite fs name c n = fs n := by
  simp [fsWrite, h]

/-- One loop iteration appends exactly one block to `rm.sh`. -/
theorem stepRecord_fs_rm (nowNs : Int) (st : RunState) (f : FileStruct) :
    (stepRecord nowNs st f).fs "rm.sh" =
      some ((st.fs "rm.sh").getD "" ++ recordEntryRm nowNs f) := by
  show (fsAppend (fsAppend st.fs "rm.sh" (recordEntryRm nowNs f)) "sync.sh"
    (recordEntrySync nowNs f)) "rm.sh" = _
  rw [fsAppend_other _ _ _ _ (by decide), fsAppend_same]

/-- One loop iteration appends exactly one block to `sync.sh`. -/
theorem stepRecord_fs_sync (nowNs : Int) (st : RunState) (f : FileStruct) :
    (stepRecord nowNs st f).fs "sync.sh" =
      some ((st.fs "sync.sh").getD "" ++ recordEntrySync nowNs f) := by
  show (fsAppend (fsAppend st.fs "rm.sh" (recordEntryRm nowNs f)) "sync.sh"
    (recordEntrySync nowNs f)) "sync.sh" = _
  rw [fsAppend_same, fsAppend_other _ _ _ _ (by decide)]

/-- Folding the loop over a record list threads the `rm.sh` content. -/
theorem foldl_step_fs_rm (nowNs : Int) (l : List FileStruct) :
    ∀ (st : RunState) (cur : String), st.fs "rm.sh" = some cur →
      (l.foldl (stepRecord nowNs) st).fs "rm.sh" =
        some (l.foldl (fun acc f => acc ++ recordEntryRm nowNs f) cur) := by
  induction l with
  | nil =>
    intro st cur h
    simpa using h
  | cons f fs ih =>
    intro st cur h
    rw [List.foldl_cons, List.foldl_cons]
    refine ih _ _ ?_
    rw [stepRecord_fs_rm, h]
    rfl

/-- Folding the loop over a record list threads the `sync.sh` content. -/
theorem foldl_step_fs_sync (nowNs : Int) (l : List FileStruct) :
    ∀ (st : RunState) (cur : String), st.fs "sync.sh" = some cur →
      (l.foldl (stepRecord nowNs) st).fs "sync.sh" =
        some (l.foldl (fun acc f => acc ++ recordEntrySync nowNs f) cur) := by
  induction l with
  | nil =>
    intro st cur h
    simpa using h
  | cons f fs ih =>
    intro st cur h
    rw [List.foldl_cons, List.foldl_cons]
    refine ih _ _ ?_
    rw [stepRecord_fs_sync, h]
    rfl

/-- C7: when the run succeeds, the final `rm.sh` holds exactly one
comment-plus-`aws s3 rm` block per record (in sorted order), `sync.sh` one
comment-plus-`aws s3 sync` block per record, independent of whatever those
files held before the run (they are deleted first - with no records they are
deleted and never recreated), and `results.json` holds the 2-space-indented
structured dump of the sorted records. -/
theorem c7_variant2_artifacts (sortKey sortOrder : String) (nowNs : Int)
    (inputLines : List String) (fs0 : String → Option String)
    (files sorted : List FileStruct)
    (h1 : processLines parseLineV2 inputLines = Except.ok files)
    (h2 : applySort sortKey sortOrder files = Except.ok sorted) :
    runVariant2 sortKey sortOrder nowNs inputLines fs0 =
      Except.ok (runSortedOk nowNs sorted fs0) ∧
    (runSortedOk nowNs sorted fs0).fs "rm.sh" =
      (if sorted.isEmpty then none
        else some (scriptBody (recordEntryRm nowNs) sorted)) ∧
    (runSortedOk nowNs sorted fs0).fs "sync.sh" =
      (if sorted.isEmpty then none
        else some (scriptBody (recordEntrySync nowNs) sorted)) ∧
    (runSortedOk nowNs sorted fs0).fs "results.json" =
      some (marshalIndentRecords sorted) := by
  have hrun : runVariant2 sortKey sortOrder nowNs inputLines fs0 =
      Except.ok (runSortedOk nowNs sorted fs0) := by
    rw [runVariant2, h1]
    show Except.map (fun sorted => runSortedOk nowNs sorted fs0)
      (applySort sortKey sortOrder files) = _
    rw [h2]
    rfl
  have hjson : (runSortedOk nowNs sorted fs0).fs "results.json" =
      some (marshalIndentRecords sorted) := by
    show (fsWrite (sorted.foldl (stepRecord nowNs)
        ⟨["Sorted Files:\n"], fsRemove (fsRemove fs0 "rm.sh") "sync.sh"⟩).fs
      "results.json" (marshalIndentRecords sorted)) "results.json" = _
    rw [fsWrite_same]
  have hrm : (runSortedOk nowNs sorted fs0).fs "rm.sh" =
      (if sorted.isEmpty then none
        else some (scriptBody (recordEntryRm nowNs) sorted)) := by
    show (fsWrite (sorted.foldl (stepRecord nowNs)
        ⟨["Sorted Files:\n"], fsRemove (fsRemove fs0 "rm.sh") "sync.sh"⟩).fs
      "results.json" (marshalIndentRecords sorted)) "rm.sh" = _
    rw [fsWrite_other _ _ _ _ (by decide)]
    cases sorted with
    | nil =>
      show (fsRemove (fsRemove fs0 "rm.sh") "sync.sh") "rm.sh" = _
      rw [fsRemove_other _ _ _ (by decide), fsRemove_same]
      rfl
    | cons f rest =>
      rw [List.foldl_cons]
      rw [foldl_step_fs_rm nowNs rest _ ("" ++ recordEntryRm nowNs f) ?hstep]
      case hstep =>
        rw [stepRecord_fs_rm]
        show some (((fsRemove (fsRemove fs0 "rm.sh") "sync.sh") "rm.sh").getD ""
          ++ recordEntryRm nowNs f) = _
        rw [fsRemove_other _ _ _ (by decide), fsRemove_same]
        rfl
      show some (rest.foldl (fun acc f => acc ++ recordEntryRm nowNs f)
        ("" ++ recordEntryRm nowNs f)) = some (scriptBody (recordEntryRm nowNs) (f :: rest))
      rw [scriptBody, List.foldl_cons]
  have hsync : (runSortedOk nowNs sorted fs0).fs "sync.sh" =
      (if sorted.isEmpty then none
        else some (scriptBody (recordEntrySync nowNs) sorted)) := by
    show (fsWrite (sorted.foldl (stepRecord nowNs)
        ⟨["Sorted Files:\n"], fsRemove (fsRemove fs0 "rm.sh") "sync.sh"⟩).fs
      "results.json" (marshalIndentRecords sorted)) "sync.sh" = _
    rw [fsWrite_other _ _ _ _ (by decide)]
    cases sorted with
    | nil =>
      show (fsRemove (fsRemove fs0 "rm.sh") "sync.sh") "sync.sh" = _
      rw [fsRemove_same]
      rfl
    | cons f rest =>
      rw [List.foldl_cons]
      rw [foldl_step_fs_sync nowNs rest _ ("" ++ recordEntrySync nowNs f) ?hstep]
      case hstep =>
        rw [stepRecord_fs_sync]
        show some (((fsRemove (fsRemove fs0 "rm.sh") "sync.sh") "sync.sh").getD ""
          ++ recordEntrySync nowNs f) = _
        rw [fsRemove_same]
        rfl
      show some (rest.foldl (fun acc f => acc ++ recordEntrySync nowNs f)
        ("" ++ recordEntrySync nowNs f)) = some (scriptBody (recordEntrySync nowNs) (f :: rest))
      rw [scriptBody, List.foldl_cons]
  exact ⟨hrun, hrm, hsync, hjson⟩

/-- Witness for `c7_variant2_artifacts`: one concrete input line over a file
system whose `rm.sh`, `sync.sh` and `results.json` hold stale content. -/
theorem c7_variant2_artifacts_witness :
    runVariant2 "timestamp" "asc" 0 ["2023-01-15 08:30:00 1024 b.mp4"] (fun _ => some "OLD") =
      Except.ok (runSortedOk 0
        [⟨⟨2023, 1, 15, 8, 30, 0, 0⟩, 1024, "b.mp4", ⟨2023, 1, 15, 8, 30, 0, 0⟩⟩]
        (fun _ => some "OLD")) ∧
    (runSortedOk 0 [⟨⟨2023, 1, 15, 8, 30, 0, 0⟩, 1024, "b.mp4", ⟨2023, 1, 15, 8, 30, 0, 0⟩⟩]
        (fun _ => some "OLD")).fs "rm.sh" =
      (if ([⟨⟨2023, 1, 15, 8, 30, 0, 0⟩, 1024, "b.mp4", ⟨2023, 1, 15, 8, 30, 0, 0⟩⟩] :
          List FileStruct).isEmpty then none
        else some (scriptBody (recordEntryRm 0)
          [⟨⟨2023, 1, 15, 8, 30, 0, 0⟩, 1024, "b.mp4", ⟨2023, 1, 15, 8, 30, 0, 0⟩⟩])) ∧
    (runSortedOk 0 [⟨⟨2023, 1, 15, 8, 30, 0, 0⟩, 1024, "b.mp4", ⟨2023, 1, 15, 8, 30, 0, 0⟩⟩]
        (fun _ => some "OLD")).fs "sync.sh" =
      (if ([⟨⟨2023, 1, 15, 8, 30, 0, 0⟩, 1024, "b.mp4", ⟨2023, 1, 15, 8, 30, 0, 0⟩⟩] :
          List FileStruct).isEmpty then none
        else some (scriptBody (recordEntrySync 0)
          [⟨⟨2023, 1, 15, 8, 30, 0, 0⟩, 1024, "b.mp4", ⟨2023, 1, 15, 8, 30, 0, 0⟩⟩])) ∧
    (runSortedOk 0 [⟨⟨2023, 1, 15, 8, 30, 0, 0⟩, 1024, "b.mp4", ⟨2023, 1, 15, 8, 30, 0, 0⟩⟩]
        (fun _ => some "OLD")).fs "results.json" =
      some (marshalIndentRecords
        [⟨⟨2023, 1, 15, 8, 30, 0, 0⟩, 1024, "b.mp4", ⟨2023, 1, 15, 8, 30, 0, 0⟩⟩]) :=
  c7_variant2_artifacts "timestamp" "asc" 0 ["2023-01-15 08:30:00 1024 b.mp4"]
    (fun _ => some "OLD")
    [⟨⟨2023, 1, 15, 8, 30, 0, 0⟩, 1024, "b.mp4", ⟨2023, 1, 15, 8, 30, 0, 0⟩⟩]
    [⟨⟨2023, 1, 15, 8, 30, 0, 0⟩, 1024, "b.mp4", ⟨2023, 1, 15, 8, 30, 0, 0⟩⟩]
    rfl rfl
